import Mathlib

/-
Verification of the first-person locomotion controller (bevy-fp-template).

The development shallowly embeds the input-sampling and motion systems of
the repository:

  * `src/components/movement.rs`, `src/components/lookaround.rs`
    (direction enums with epsilon equality),
  * `src/systems/first_person_movement.rs`, `src/systems/first_person_lookaround.rs`
    (per-tick intent sampling with keyboard / mouse / gamepad resolution),
  * `src/systems/player.rs` and `src/plugins/game/main.rs`
    (`rotate_player_head`, `move_player_body`, `jump_player_body`).

Modelling conventions:
  * f32 scalars become `ℚ` (exact arithmetic);
    the pitch integrator is generic over a `LinearOrderedField` so the
    `±π/2` clamp can be stated over `ℝ`.
  * Bevy ECS queries become explicit lists of component values;
    `get_single` / `expect` panics become `Option.none`.
  * The rapier ray cast is an oracle function argument (the physics engine
    is an external collaborator); the ray construction itself is embedded.
  * `just_pressed` flags are per-tick booleans: bevy's `Input` resource is
    edge-triggered, so a held button reports `just_pressed = true` only on
    the tick of the press transition.
-/

namespace BevyFP

/-- Three-component rational vector modelling the f32 `Vec3` / `Vector3<f32>`
values used by the movement and jump systems. -/
structure Vec3 where
  x : ℚ
  y : ℚ
  z : ℚ
  deriving DecidableEq

/-- Componentwise vector addition. -/
def Vec3.add (a b : Vec3) : Vec3 := ⟨a.x + b.x, a.y + b.y, a.z + b.z⟩

/-- Scalar multiplication on the right, as in `forward * forward_back_magnitude`. -/
def Vec3.smul (v : Vec3) (c : ℚ) : Vec3 := ⟨v.x * c, v.y * c, v.z * c⟩

/-- Squared euclidean norm.  The source guard `linvel.magnitude() < max_speed`
is embedded as `magnitudeSq linvel < max_speed ^ 2`, which is equivalent for
the nonnegative `max_speed` of any `PlayerConfig` (the config documents all
fields as positive) because both sides of the source comparison are then
nonnegative. -/
def Vec3.magnitudeSq (v : Vec3) : ℚ := v.x ^ 2 + v.y ^ 2 + v.z ^ 2

/-- Squared norm of the projection onto the horizontal (XZ) plane; used to
state claims about the horizontal speed. -/
def Vec3.horizontalSq (v : Vec3) : ℚ := v.x ^ 2 + v.z ^ 2

/-- The player section of the game configuration
(`src/resources/game_config.rs`, `PlayerConfig`). -/
structure PlayerConfig where
  capsule_height : ℚ
  capsule_radius : ℚ
  movement_force : ℚ
  jump_force : ℚ
  max_speed : ℚ
  deriving DecidableEq

/-- `MOVEMENT_DIRECTION_MARGIN` from `src/components/movement.rs` (0.01). -/
def MOVEMENT_DIRECTION_MARGIN : ℚ := 1 / 100

/-- `MovementDirection` from `src/components/movement.rs`. -/
inductive MovementDirection where
  | Left : ℚ → MovementDirection
  | Right : ℚ → MovementDirection
  | Forward : ℚ → MovementDirection
  | Back : ℚ → MovementDirection
  deriving DecidableEq

/-- The `PartialEq` implementation for `MovementDirection`: same tag and
magnitudes within `MOVEMENT_DIRECTION_MARGIN` (strict); different tags are
never equal. -/
def MovementDirection.eq : MovementDirection → MovementDirection → Bool
  | .Left a, .Left b => decide (|a - b| < MOVEMENT_DIRECTION_MARGIN)
  | .Right a, .Right b => decide (|a - b| < MOVEMENT_DIRECTION_MARGIN)
  | .Forward a, .Forward b => decide (|a - b| < MOVEMENT_DIRECTION_MARGIN)
  | .Back a, .Back b => decide (|a - b| < MOVEMENT_DIRECTION_MARGIN)
  | _, _ => false

/-- Constructor tag of a `MovementDirection`, used to state tag-exactness. -/
def MovementDirection.ctorIdx : MovementDirection → ℕ
  | .Left _ => 0
  | .Right _ => 1
  | .Forward _ => 2
  | .Back _ => 3

/-- The `Movement` component: one lateral and one longitudinal direction. -/
structure Movement where
  left_right : MovementDirection
  forward_back : MovementDirection
  deriving DecidableEq

/-- `LOOKAROUND_DIRECTION_MARGIN` from `src/components/lookaround.rs` (0.01). -/
def LOOKAROUND_DIRECTION_MARGIN : ℚ := 1 / 100

/-- `LookaroundDirection` from `src/components/lookaround.rs`, generic in the
scalar type so the pitch integrator can be instantiated at `ℝ`. -/
inductive LookaroundDirection (α : Type) where
  | Left : α → LookaroundDirection α
  | Right : α → LookaroundDirection α
  | Up : α → LookaroundDirection α
  | Down : α → LookaroundDirection α
  deriving DecidableEq

/-- The `PartialEq` implementation for `LookaroundDirection`. -/
def LookaroundDirection.eq : LookaroundDirection ℚ → LookaroundDirection ℚ → Bool
  | .Left a, .Left b => decide (|a - b| < LOOKAROUND_DIRECTION_MARGIN)
  | .Right a, .Right b => decide (|a - b| < LOOKAROUND_DIRECTION_MARGIN)
  | .Up a, .Up b => decide (|a - b| < LOOKAROUND_DIRECTION_MARGIN)
  | .Down a, .Down b => decide (|a - b| < LOOKAROUND_DIRECTION_MARGIN)
  | _, _ => false

/-- Constructor tag of a `LookaroundDirection`. -/
def LookaroundDirection.ctorIdx {α : Type} : LookaroundDirection α → ℕ
  | .Left _ => 0
  | .Right _ => 1
  | .Up _ => 2
  | .Down _ => 3

/-- The `Lookaround` component: one lateral (yaw) and one vertical (pitch)
direction. -/
structure Lookaround (α : Type) where
  left_right : LookaroundDirection α
  up_down : LookaroundDirection α
  deriving DecidableEq

/-- Pressed state of the movement keys queried by `first_person_movement`
(the `Input<KeyCode>.pressed` calls for A/Left, D/Right, S/Down, W/Up). -/
structure Keyboard where
  a : Bool
  leftArrow : Bool
  d : Bool
  rightArrow : Bool
  s : Bool
  downArrow : Bool
  w : Bool
  upArrow : Bool
  deriving DecidableEq

/-- Per-tick state of one connected gamepad: the optional analog stick
readings (`Axis<GamepadAxis>.get`, `none` when the axis is absent) and the
edge-triggered `just_pressed` state of the South button. -/
structure GamepadState where
  leftStickX : Option ℚ
  leftStickY : Option ℚ
  rightStickX : Option ℚ
  rightStickY : Option ℚ
  southJustPressed : Bool
  deriving DecidableEq

/-- One `MouseMotion` event delta received this tick. -/
structure MouseMotionEvent where
  dx : ℚ
  dy : ℚ
  deriving DecidableEq

/-- Per-gamepad left-stick X handling in `first_person_movement`
(lines 41-49): a present, nonzero reading overwrites the accumulator. -/
def movementPadStickX (cur : MovementDirection) (reading : Option ℚ) :
    MovementDirection :=
  match reading with
  | some magnitude =>
      if magnitude ≠ 0 then
        if magnitude > 0 then .Right magnitude else .Left |magnitude|
      else cur
  | none => cur

/-- Per-gamepad left-stick Y handling in `first_person_movement`
(lines 50-58). -/
def movementPadStickY (cur : MovementDirection) (reading : Option ℚ) :
    MovementDirection :=
  match reading with
  | some magnitude =>
      if magnitude ≠ 0 then
        if magnitude > 0 then .Forward magnitude else .Back |magnitude|
      else cur
  | none => cur

/-- `first_person_movement` (src/systems/first_person_movement.rs).
The subjects list models the `Query<&mut Movement, With<FirstPersonSubject>>`
matches; `none` models the panic raised when `get_single_mut` fails, i.e.
when the query does not match exactly one entity. -/
def first_person_movement (keyboard : Keyboard) (gamepads : List GamepadState)
    (subjects : List Movement) : Option Movement :=
  let left_right : MovementDirection := .Right 0
  let forward_back : MovementDirection := .Forward 0
  let left_right := if keyboard.a || keyboard.leftArrow then .Left 1 else left_right
  let left_right := if keyboard.d || keyboard.rightArrow then .Right 1 else left_right
  let forward_back := if keyboard.s || keyboard.downArrow then .Back 1 else forward_back
  let forward_back := if keyboard.w || keyboard.upArrow then .Forward 1 else forward_back
  let st := gamepads.foldl
    (fun st pad =>
      (movementPadStickX st.1 pad.leftStickX, movementPadStickY st.2 pad.leftStickY))
    (left_right, forward_back)
  match subjects with
  | [_] => some ⟨st.1, st.2⟩
  | _ => none

/-- Per-event mouse delta-x handling in `first_person_lookaround`
(lines 27-33): a positive delta yields `Right`, a negative one `Left`, and a
zero delta keeps the accumulated value. -/
def lookMouseStepX (cur : LookaroundDirection ℚ) (delta_x : ℚ) :
    LookaroundDirection ℚ :=
  if delta_x > 0 then .Right delta_x
  else if delta_x < 0 then .Left |delta_x|
  else cur

/-- Per-event mouse delta-y handling in `first_person_lookaround`
(lines 34-40): positive yields `Down`, negative yields `Up`. -/
def lookMouseStepY (cur : LookaroundDirection ℚ) (delta_y : ℚ) :
    LookaroundDirection ℚ :=
  if delta_y > 0 then .Down delta_y
  else if delta_y < 0 then .Up |delta_y|
  else cur

/-- Per-gamepad right-stick X handling in `first_person_lookaround`
(lines 46-57). -/
def lookPadStickX (cur : LookaroundDirection ℚ) (reading : Option ℚ) :
    LookaroundDirection ℚ :=
  match reading with
  | some magnitude =>
      if magnitude ≠ 0 then
        if magnitude > 0 then .Right magnitude else .Left |magnitude|
      else cur
  | none => cur

/-- Per-gamepad right-stick Y handling in `first_person_lookaround`
(lines 58-69): a positive reading yields `Up` (the opposite vertical sign
from the mouse convention). -/
def lookPadStickY (cur : LookaroundDirection ℚ) (reading : Option ℚ) :
    LookaroundDirection ℚ :=
  match reading with
  | some magnitude =>
      if magnitude ≠ 0 then
        if magnitude > 0 then .Up magnitude else .Down |magnitude|
      else cur
  | none => cur

/-- `first_person_lookaround` (src/systems/first_person_lookaround.rs). -/
def first_person_lookaround (mouse_motion_events : List MouseMotionEvent)
    (gamepads : List GamepadState) (subjects : List (Lookaround ℚ)) :
    Option (Lookaround ℚ) :=
  let st := mouse_motion_events.foldl
    (fun st e => (lookMouseStepX st.1 e.dx, lookMouseStepY st.2 e.dy))
    ((.Right 0 : LookaroundDirection ℚ), (.Up 0 : LookaroundDirection ℚ))
  let st := gamepads.foldl
    (fun st pad =>
      (lookPadStickX st.1 pad.rightStickX, lookPadStickY st.2 pad.rightStickY))
    st
  match subjects with
  | [_] => some ⟨st.1, st.2⟩
  | _ => none

/-- The `left_right` match of `move_player_body` (player.rs lines 170-176):
`Left` contributes `-magnitude * movement_force`, `Right` contributes
`+magnitude * movement_force`; any other tag panics (`none`). -/
def leftRightMagnitude (cfg : PlayerConfig) : MovementDirection → Option ℚ
  | .Left magnitude => some (-magnitude * cfg.movement_force)
  | .Right magnitude => some (magnitude * cfg.movement_force)
  | _ => none

/-- The `forward_back` match of `move_player_body` (player.rs lines 177-183). -/
def forwardBackMagnitude (cfg : PlayerConfig) : MovementDirection → Option ℚ
  | .Forward magnitude => some (magnitude * cfg.movement_force)
  | .Back magnitude => some (-magnitude * cfg.movement_force)
  | _ => none

/-- `forward = -Vec3::new(local_z.x, 0., local_z.z)` (player.rs line 168). -/
def forwardVec (local_z : Vec3) : Vec3 := ⟨-local_z.x, 0, -local_z.z⟩

/-- `right = Vec3::new(local_z.z, 0., -local_z.x)` (player.rs line 169). -/
def rightVec (local_z : Vec3) : Vec3 := ⟨local_z.z, 0, -local_z.x⟩

/-- `move_player_body` (player.rs lines 150-186 and the identical copy in
plugins/game/main.rs lines 264-313).  The guard in the source is
`body_velocity.linvel.magnitude() < player_config.max_speed()`, on the full
3D velocity; it is embedded in the equivalent squared form.  When the guard
passes the force accumulator is overwritten (`body_force.force = ...`); when
it fails the function returns without touching the force, so the prior value
`body_force` persists. -/
def move_player_body (cfg : PlayerConfig) (movement : Movement) (local_z : Vec3)
    (body_force : Vec3) (body_linvel : Vec3) : Option Vec3 :=
  if body_linvel.magnitudeSq < cfg.max_speed ^ 2 then
    match leftRightMagnitude cfg movement.left_right,
        forwardBackMagnitude cfg movement.forward_back with
    | some lr, some fb =>
        some (((forwardVec local_z).smul fb).add ((rightVec local_z).smul lr))
    | _, _ => none
  else
    some body_force

/-- The origin of the ground-probe ray of `jump_player_body`
(player.rs lines 206-211): the subject's translation moved down by
`capsule_height / 2 + 0.01`. -/
def jumpRayOrigin (cfg : PlayerConfig) (translation : Vec3) : Vec3 :=
  ⟨translation.x, translation.y - (cfg.capsule_height / 2 + 1 / 100), translation.z⟩

/-- `jump_player_body` (player.rs lines 188-231 and the identical copy in
plugins/game/main.rs lines 315-363).  `castRayHit origin direction max_toi`
is the rapier `QueryPipeline::cast_ray` oracle (the physics engine is an
external collaborator); the source calls it with the ray built by
`jumpRayOrigin`, direction `(0, -1, 0)` and `max_toi = 0.02`.
`spaceJustPressed` is `keyboard_input.just_pressed(KeyCode::Space)` and each
gamepad carries the `just_pressed` state of its South button. -/
def jump_player_body (cfg : PlayerConfig) (castRayHit : Vec3 → Vec3 → ℚ → Bool)
    (translation : Vec3) (body_force : Vec3) (spaceJustPressed : Bool)
    (gamepads : List GamepadState) : Vec3 :=
  if castRayHit (jumpRayOrigin cfg translation) ⟨0, -1, 0⟩ (2 / 100) then
    let jump_y : ℚ := if spaceJustPressed then cfg.jump_force else 0
    let jump_y := gamepads.foldl
      (fun acc pad => if pad.southJustPressed then cfg.jump_force else acc) jump_y
    body_force.add ⟨0, jump_y, 0⟩
  else
    body_force

/-- Rust's `f32::clamp(self, lo, hi)`: requires `lo ≤ hi` and returns the
value moved into `[lo, hi]`. -/
def rustClamp {α : Type} [LinearOrder α] (x lo hi : α) : α := min (max x lo) hi

/-- `rotate_player_head` (player.rs lines 87-115), reduced to the pitch angle.
The source stores the head rotation as `Quat::from_rotation_x(angle)` and
reads the angle back with `to_euler(EulerRot::XYZ)`; for the pure-x rotations
with clamped angle in `[-π/2, π/2]` this round-trip is the identity, so the
state is modelled as the angle itself.  `5 / 1000` is the source constant
`0.005`; `frac_pi_2` is `std::f32::consts::FRAC_PI_2`, instantiated with the
real `π / 2` in the theorems.  A `Left`/`Right` vertical intent panics
(`none`). -/
def rotate_player_head {α : Type} [LinearOrderedField α] (frac_pi_2 : α)
    (vertical_sensitivity : ℕ) (angle : α) (up_down : LookaroundDirection α) :
    Option α :=
  match up_down with
  | .Up magnitude =>
      some (rustClamp (angle + magnitude * (5 / 1000) * ((vertical_sensitivity : α) / 5))
        (-frac_pi_2) frac_pi_2)
  | .Down magnitude =>
      some (rustClamp (angle - magnitude * (5 / 1000) * ((vertical_sensitivity : α) / 5))
        (-frac_pi_2) frac_pi_2)
  | _ => none

/-- Specification-side helper: the last entry of a list of axis readings that
is nonzero, if any.  Used to describe the devices-override resolution, where
a later nonzero reading overwrites an earlier one. -/
def lastNonzero : List ℚ → Option ℚ
  | [] => none
  | d :: ds =>
      match lastNonzero ds with
      | some e => some e
      | none => if d ≠ 0 then some d else none

/-- Specification-side helper: fall back to `cur` when no nonzero reading
exists, otherwise apply `map` to the winning reading. -/
def resolveOr {α : Type} (cur : α) (map : ℚ → α) : Option ℚ → α
  | none => cur
  | some d => map d

/-- Specification-side helper: the keyboard-only lateral resolution of
`first_person_movement` — the D/Right check runs after (and so overrides)
the A/Left check. -/
def keyboardLeftRight (kb : Keyboard) : MovementDirection :=
  if kb.d || kb.rightArrow then .Right 1
  else if kb.a || kb.leftArrow then .Left 1
  else .Right 0

/-- Specification-side helper: the keyboard-only longitudinal resolution —
the W/Up check runs after (and so overrides) the S/Down check. -/
def keyboardForwardBack (kb : Keyboard) : MovementDirection :=
  if kb.w || kb.upArrow then .Forward 1
  else if kb.s || kb.downArrow then .Back 1
  else .Forward 0

/-- Mapping from a decisive nonzero axis value to a lateral movement intent. -/
def resolveRightLeftMove (d : ℚ) : MovementDirection :=
  if d > 0 then .Right d else .Left |d|

/-- Mapping from a decisive nonzero axis value to a longitudinal intent. -/
def resolveForwardBack (d : ℚ) : MovementDirection :=
  if d > 0 then .Forward d else .Back |d|

/-- Mapping from a decisive nonzero axis value to a lateral look intent. -/
def resolveRightLeftLook (d : ℚ) : LookaroundDirection ℚ :=
  if d > 0 then .Right d else .Left |d|

/-- Mapping from a decisive nonzero right-stick Y value to a vertical look
intent: positive maps to `Up`. -/
def resolveUpDownPad (d : ℚ) : LookaroundDirection ℚ :=
  if d > 0 then .Up d else .Down |d|

/-- Mapping from a decisive nonzero mouse delta-y to a vertical look intent:
positive maps to `Down`. -/
def resolveDownUpMouse (d : ℚ) : LookaroundDirection ℚ :=
  if d > 0 then .Down d else .Up |d|

/-! Helper lemmas about the device-resolution folds. -/

/-- The gamepad loop of `first_person_movement` updates the two axes
independently, so the pair fold splits into two component folds. -/
theorem movement_fold_split (pads : List GamepadState) :
    ∀ a b : MovementDirection,
      pads.foldl (fun st pad =>
          (movementPadStickX st.1 pad.leftStickX, movementPadStickY st.2 pad.leftStickY))
        (a, b)
        = (pads.foldl (fun st pad => movementPadStickX st pad.leftStickX) a,
           pads.foldl (fun st pad => movementPadStickY st pad.leftStickY) b) := by
  induction pads with
  | nil => intro a b; rfl
  | cons p ps ih =>
      intro a b
      rw [List.foldl_cons, List.foldl_cons, List.foldl_cons]
      exact ih _ _

/-- The mouse loop of `first_person_lookaround` splits into two component
folds. -/
theorem mouse_fold_split (events : List MouseMotionEvent) :
    ∀ a b : LookaroundDirection ℚ,
      events.foldl (fun st e => (lookMouseStepX st.1 e.dx, lookMouseStepY st.2 e.dy)) (a, b)
        = (events.foldl (fun st e => lookMouseStepX st e.dx) a,
           events.foldl (fun st e => lookMouseStepY st e.dy) b) := by
  induction events with
  | nil => intro a b; rfl
  | cons e es ih =>
      intro a b
      rw [List.foldl_cons, List.foldl_cons, List.foldl_cons]
      exact ih _ _

/-- The gamepad loop of `first_person_lookaround` splits into two component
folds. -/
theorem look_pad_fold_split (pads : List GamepadState) :
    ∀ a b : LookaroundDirection ℚ,
      pads.foldl (fun st pad =>
          (lookPadStickX st.1 pad.rightStickX, lookPadStickY st.2 pad.rightStickY)) (a, b)
        = (pads.foldl (fun st pad => lookPadStickX st pad.rightStickX) a,
           pads.foldl (fun st pad => lookPadStickY st pad.rightStickY) b) := by
  induction pads with
  | nil => intro a b; rfl
  | cons p ps ih =>
      intro a b
      rw [List.foldl_cons, List.foldl_cons, List.foldl_cons]
      exact ih _ _

/-- A fold whose step overwrites the accumulator with `map (f p)` whenever
the reading `f p` is nonzero resolves to the last nonzero reading. -/
theorem foldl_stepNZ_map {α β : Type} (map : ℚ → α) (f : β → ℚ) :
    ∀ (l : List β) (cur : α),
      l.foldl (fun acc p => if f p ≠ 0 then map (f p) else acc) cur
        = resolveOr cur map (lastNonzero (l.map f)) := by
  intro l
  induction l with
  | nil => intro cur; rfl
  | cons p l ih =>
      intro cur
      rw [List.foldl_cons, ih]
      cases h : lastNonzero (l.map f) with
      | some e => simp [lastNonzero, h, resolveOr]
      | none =>
          by_cases hd : f p = 0
          · simp [lastNonzero, h, hd, resolveOr]
          · simp [lastNonzero, h, hd, resolveOr]

theorem movementPadStickX_eq (cur : MovementDirection) (r : Option ℚ) :
    movementPadStickX cur r
      = if r.getD 0 ≠ 0 then resolveRightLeftMove (r.getD 0) else cur := by
  cases r with
  | none => simp [movementPadStickX]
  | some m => simp [movementPadStickX, resolveRightLeftMove]

theorem movementPadStickY_eq (cur : MovementDirection) (r : Option ℚ) :
    movementPadStickY cur r
      = if r.getD 0 ≠ 0 then resolveForwardBack (r.getD 0) else cur := by
  cases r with
  | none => simp [movementPadStickY]
  | some m => simp [movementPadStickY, resolveForwardBack]

theorem lookPadStickX_eq (cur : LookaroundDirection ℚ) (r : Option ℚ) :
    lookPadStickX cur r
      = if r.getD 0 ≠ 0 then resolveRightLeftLook (r.getD 0) else cur := by
  cases r with
  | none => simp [lookPadStickX]
  | some m => simp [lookPadStickX, resolveRightLeftLook]

theorem lookPadStickY_eq (cur : LookaroundDirection ℚ) (r : Option ℚ) :
    lookPadStickY cur r
      = if r.getD 0 ≠ 0 then resolveUpDownPad (r.getD 0) else cur := by
  cases r with
  | none => simp [lookPadStickY]
  | some m => simp [lookPadStickY, resolveUpDownPad]

theorem lookMouseStepX_eq (cur : LookaroundDirection ℚ) (d : ℚ) :
    lookMouseStepX cur d = if d ≠ 0 then resolveRightLeftLook d else cur := by
  rcases lt_trichotomy d 0 with h | h | h
  · simp [lookMouseStepX, resolveRightLeftLook, h, h.ne, not_lt.mpr h.le]
  · simp [lookMouseStepX, h]
  · simp [lookMouseStepX, resolveRightLeftLook, h, h.ne']

theorem lookMouseStepY_eq (cur : LookaroundDirection ℚ) (d : ℚ) :
    lookMouseStepY cur d = if d ≠ 0 then resolveDownUpMouse d else cur := by
  rcases lt_trichotomy d 0 with h | h | h
  · simp [lookMouseStepY, resolveDownUpMouse, h, h.ne, not_lt.mpr h.le]
  · simp [lookMouseStepY, h]
  · simp [lookMouseStepY, resolveDownUpMouse, h, h.ne']

theorem foldl_pad_moveX (pads : List GamepadState) (cur : MovementDirection) :
    pads.foldl (fun st p => movementPadStickX st p.leftStickX) cur
      = resolveOr cur resolveRightLeftMove
          (lastNonzero (pads.map fun p => p.leftStickX.getD 0)) := by
  have hs : (fun (st : MovementDirection) (p : GamepadState) =>
        movementPadStickX st p.leftStickX)
      = fun st p =>
        if p.leftStickX.getD 0 ≠ 0 then resolveRightLeftMove (p.leftStickX.getD 0) else st := by
    funext st p
    exact movementPadStickX_eq st p.leftStickX
  rw [hs, foldl_stepNZ_map]

theorem foldl_pad_moveY (pads : List GamepadState) (cur : MovementDirection) :
    pads.foldl (fun st p => movementPadStickY st p.leftStickY) cur
      = resolveOr cur resolveForwardBack
          (lastNonzero (pads.map fun p => p.leftStickY.getD 0)) := by
  have hs : (fun (st : MovementDirection) (p : GamepadState) =>
        movementPadStickY st p.leftStickY)
      = fun st p =>
        if p.leftStickY.getD 0 ≠ 0 then resolveForwardBack (p.leftStickY.getD 0) else st := by
    funext st p
    exact movementPadStickY_eq st p.leftStickY
  rw [hs, foldl_stepNZ_map]

theorem foldl_pad_lookX (pads : List GamepadState) (cur : LookaroundDirection ℚ) :
    pads.foldl (fun st p => lookPadStickX st p.rightStickX) cur
      = resolveOr cur resolveRightLeftLook
          (lastNonzero (pads.map fun p => p.rightStickX.getD 0)) := by
  have hs : (fun (st : LookaroundDirection ℚ) (p : GamepadState) =>
        lookPadStickX st p.rightStickX)
      = fun st p =>
        if p.rightStickX.getD 0 ≠ 0 then resolveRightLeftLook (p.rightStickX.getD 0) else st := by
    funext st p
    exact lookPadStickX_eq st p.rightStickX
  rw [hs, foldl_stepNZ_map]

theorem foldl_pad_lookY (pads : List GamepadState) (cur : LookaroundDirection ℚ) :
    pads.foldl (fun st p => lookPadStickY st p.rightStickY) cur
      = resolveOr cur resolveUpDownPad
          (lastNonzero (pads.map fun p => p.rightStickY.getD 0)) := by
  have hs : (fun (st : LookaroundDirection ℚ) (p : GamepadState) =>
        lookPadStickY st p.rightStickY)
      = fun st p =>
        if p.rightStickY.getD 0 ≠ 0 then resolveUpDownPad (p.rightStickY.getD 0) else st := by
    funext st p
    exact lookPadStickY_eq st p.rightStickY
  rw [hs, foldl_stepNZ_map]

theorem foldl_mouseX (events : List MouseMotionEvent) (cur : LookaroundDirection ℚ) :
    events.foldl (fun st e => lookMouseStepX st e.dx) cur
      = resolveOr cur resolveRightLeftLook
          (lastNonzero (events.map MouseMotionEvent.dx)) := by
  have hs : (fun (st : LookaroundDirection ℚ) (e : MouseMotionEvent) =>
        lookMouseStepX st e.dx)
      = fun st e => if e.dx ≠ 0 then resolveRightLeftLook e.dx else st := by
    funext st e
    exact lookMouseStepX_eq st e.dx
  rw [hs, foldl_stepNZ_map]

theorem foldl_mouseY (events : List MouseMotionEvent) (cur : LookaroundDirection ℚ) :
    events.foldl (fun st e => lookMouseStepY st e.dy) cur
      = resolveOr cur resolveDownUpMouse
          (lastNonzero (events.map MouseMotionEvent.dy)) := by
  have hs : (fun (st : LookaroundDirection ℚ) (e : MouseMotionEvent) =>
        lookMouseStepY st e.dy)
      = fun st e => if e.dy ≠ 0 then resolveDownUpMouse e.dy else st := by
    funext st e
    exact lookMouseStepY_eq st e.dy
  rw [hs, foldl_stepNZ_map]

/-- A list in which every entry is zero has no last nonzero entry. -/
theorem lastNonzero_eq_none (ds : List ℚ) (h : ∀ d ∈ ds, d = 0) :
    lastNonzero ds = none := by
  induction ds with
  | nil => rfl
  | cons d ds ih =>
      have hd : d = 0 := h d (List.mem_cons_self d ds)
      have hds : lastNonzero ds = none := ih fun e he => h e (List.mem_cons_of_mem d he)
      simp [lastNonzero, hds, hd]

/-- Closed form of `first_person_movement` on a singleton subject: each axis
resolves to the last nonzero gamepad left-stick reading when one exists, and
to the keyboard resolution otherwise; the prior `Movement` value is ignored
(both fields are overwritten). -/
theorem first_person_movement_resolved (kb : Keyboard) (pads : List GamepadState)
    (m : Movement) :
    first_person_movement kb pads [m]
      = some ⟨resolveOr (keyboardLeftRight kb) resolveRightLeftMove
                (lastNonzero (pads.map fun p => p.leftStickX.getD 0)),
              resolveOr (keyboardForwardBack kb) resolveForwardBack
                (lastNonzero (pads.map fun p => p.leftStickY.getD 0))⟩ := by
  simp only [first_person_movement]
  rw [movement_fold_split]
  rw [foldl_pad_moveX, foldl_pad_moveY]
  rfl

/-- Closed form of `first_person_lookaround` on a singleton subject: each
axis resolves to the last nonzero gamepad right-stick reading when one
exists, and otherwise to the last nonzero mouse delta on that axis (neutral
when no nonzero delta arrived). -/
theorem first_person_lookaround_resolved (events : List MouseMotionEvent)
    (pads : List GamepadState) (lk : Lookaround ℚ) :
    first_person_lookaround events pads [lk]
      = some ⟨resolveOr
                (resolveOr (.Right 0) resolveRightLeftLook
                  (lastNonzero (events.map MouseMotionEvent.dx)))
                resolveRightLeftLook
                (lastNonzero (pads.map fun p => p.rightStickX.getD 0)),
              resolveOr
                (resolveOr (.Up 0) resolveDownUpMouse
                  (lastNonzero (events.map MouseMotionEvent.dy)))
                resolveUpDownPad
                (lastNonzero (pads.map fun p => p.rightStickY.getD 0))⟩ := by
  simp only [first_person_lookaround]
  rw [mouse_fold_split, look_pad_fold_split]
  rw [foldl_pad_lookX, foldl_pad_lookY, foldl_mouseX, foldl_mouseY]

/-- The gamepad loop of `jump_player_body` resolves to `jf` exactly when some
connected pad's South button was just pressed. -/
theorem jump_fold (jf : ℚ) (pads : List GamepadState) :
    ∀ init : ℚ,
      pads.foldl (fun acc pad => if pad.southJustPressed then jf else acc) init
        = if pads.any (fun p => p.southJustPressed) then jf else init := by
  induction pads with
  | nil => intro init; simp
  | cons p ps ih =>
      intro init
      rw [List.foldl_cons, ih]
      by_cases hp : p.southJustPressed <;> simp [hp]

/-- Closed form of `jump_player_body`: no write when the ground probe
misses; otherwise the force gains a purely vertical increment that is
`jump_force` exactly when some jump input was just pressed and `0` otherwise. -/
theorem jump_player_body_eq (cfg : PlayerConfig) (castRayHit : Vec3 → Vec3 → ℚ → Bool)
    (pos f : Vec3) (space : Bool) (pads : List GamepadState) :
    jump_player_body cfg castRayHit pos f space pads
      = if castRayHit (jumpRayOrigin cfg pos) ⟨0, -1, 0⟩ (2 / 100) then
          f.add ⟨0,
            if space || pads.any (fun p => p.southJustPressed) then cfg.jump_force else 0,
            0⟩
        else f := by
  simp only [jump_player_body, jump_fold]
  by_cases hs : space <;>
    by_cases ha : pads.any (fun p => p.southJustPressed) <;> simp [hs, ha]

/-! Claim theorems. -/

/-- C1, counterexample to the claim as stated: with the default config
(maxSpeed 5), a velocity of `(0, 6, 0)` has horizontal speed 0 < maxSpeed,
yet `move_player_body` with a held-forward intent sets no new force (the
prior force, here zero, persists) instead of the claimed
`forward_vector * 1000`: the gate uses the full 3D velocity magnitude
(6 ≥ 5), not the horizontal projection. -/
theorem move_player_body_horizontal_gate_counterexample :
    Vec3.horizontalSq ⟨0, 6, 0⟩ < (5 : ℚ) ^ 2
    ∧ move_player_body ⟨8, 1, 1000, 10000, 5⟩ ⟨.Right 0, .Forward 1⟩ ⟨0, 0, 1⟩
        ⟨0, 0, 0⟩ ⟨0, 6, 0⟩ = some ⟨0, 0, 0⟩
    ∧ some (⟨0, 0, 0⟩ : Vec3)
        ≠ some (((forwardVec ⟨0, 0, 1⟩).smul (1 * 1000)).add
            ((rightVec ⟨0, 0, 1⟩).smul (0 * 1000))) := by
  refine ⟨by norm_num [Vec3.horizontalSq], ?_, ?_⟩
  · norm_num [move_player_body, Vec3.magnitudeSq]
  · norm_num [forwardVec, rightVec, Vec3.smul, Vec3.add, Vec3.mk.injEq]

/-- C1 (amended): for every tick with exactly one Subject, if the FULL 3D
speed is strictly below maxSpeed, `move_player_body` sets the body's force to
`forward_vector * longitudinal + right_vector * lateral`, with
lateral `= +m * movementForce` for `Right m`, `= -m * movementForce` for
`Left m`, longitudinal `= +m * movementForce` for `Forward m`,
`= -m * movementForce` for `Back m`; if the full 3D speed is at or above
maxSpeed it sets no new force this tick (the prior force value persists).
The gate condition is the full 3D velocity magnitude, not the horizontal
projection. -/
theorem move_player_body_spec (cfg : PlayerConfig) (local_z f v : Vec3) (a b : ℚ) :
    (Vec3.magnitudeSq v < cfg.max_speed ^ 2 →
      move_player_body cfg ⟨.Right a, .Forward b⟩ local_z f v
          = some (((forwardVec local_z).smul (b * cfg.movement_force)).add
              ((rightVec local_z).smul (a * cfg.movement_force)))
        ∧ move_player_body cfg ⟨.Left a, .Forward b⟩ local_z f v
          = some (((forwardVec local_z).smul (b * cfg.movement_force)).add
              ((rightVec local_z).smul (-a * cfg.movement_force)))
        ∧ move_player_body cfg ⟨.Right a, .Back b⟩ local_z f v
          = some (((forwardVec local_z).smul (-b * cfg.movement_force)).add
              ((rightVec local_z).smul (a * cfg.movement_force)))
        ∧ move_player_body cfg ⟨.Left a, .Back b⟩ local_z f v
          = some (((forwardVec local_z).smul (-b * cfg.movement_force)).add
              ((rightVec local_z).smul (-a * cfg.movement_force))))
    ∧ (¬ Vec3.magnitudeSq v < cfg.max_speed ^ 2 →
        ∀ movement : Movement, move_player_body cfg movement local_z f v = some f) := by
  constructor
  · intro h
    refine ⟨?_, ?_, ?_, ?_⟩ <;>
      simp [move_player_body, leftRightMagnitude, forwardBackMagnitude, h]
  · intro h movement
    simp [move_player_body, h]

/-- Witness for C1's amended theorem at the default config, zero velocity and
a held-forward intent. -/
theorem move_player_body_spec_witness :
    Vec3.magnitudeSq ⟨0, 0, 0⟩ < (⟨8, 1, 1000, 10000, 5⟩ : PlayerConfig).max_speed ^ 2
    ∧ move_player_body ⟨8, 1, 1000, 10000, 5⟩ ⟨.Right 0, .Forward 1⟩ ⟨0, 0, 1⟩
        ⟨0, 0, 0⟩ ⟨0, 0, 0⟩
        = some (((forwardVec ⟨0, 0, 1⟩).smul (1 * 1000)).add
            ((rightVec ⟨0, 0, 1⟩).smul (0 * 1000))) := by
  have h : Vec3.magnitudeSq ⟨0, 0, 0⟩ < ((⟨8, 1, 1000, 10000, 5⟩ : PlayerConfig)).max_speed ^ 2 := by
    norm_num [Vec3.magnitudeSq]
  exact ⟨h, ((move_player_body_spec ⟨8, 1, 1000, 10000, 5⟩ ⟨0, 0, 1⟩ ⟨0, 0, 0⟩ ⟨0, 0, 0⟩ 0 1).1 h).1⟩

/-- C2: when the speed gate passes, the force written by `move_player_body`
is independent of (fully replaces) whatever force was left in the
accumulator; and on a tick where the horizontal speed is at or above
maxSpeed — so the full 3D speed is too — nothing is written, hence with the
tick-scoped accumulator starting at zero the resulting force is zero
regardless of the `Movement` intent. -/
theorem move_player_body_replaces (cfg : PlayerConfig) (movement : Movement)
    (local_z v : Vec3) :
    (Vec3.magnitudeSq v < cfg.max_speed ^ 2 →
      ∀ f g : Vec3,
        move_player_body cfg movement local_z f v = move_player_body cfg movement local_z g v)
    ∧ (cfg.max_speed ^ 2 ≤ Vec3.horizontalSq v →
        move_player_body cfg movement local_z ⟨0, 0, 0⟩ v = some ⟨0, 0, 0⟩) := by
  constructor
  · intro h f g
    simp [move_player_body, h]
  · intro h
    have hy : (0 : ℚ) ≤ v.y ^ 2 := sq_nonneg v.y
    have hmag : ¬ Vec3.magnitudeSq v < cfg.max_speed ^ 2 := by
      have : Vec3.horizontalSq v ≤ Vec3.magnitudeSq v := by
        simp only [Vec3.horizontalSq, Vec3.magnitudeSq]
        linarith
      simp only [not_lt]
      linarith
    simp [move_player_body, hmag]

/-- Witness for C2 at the default config: the force written at rest does not
depend on the stale accumulator value, and with horizontal speed 6 ≥ 5 the
zero accumulator stays zero. -/
theorem move_player_body_replaces_witness :
    move_player_body ⟨8, 1, 1000, 10000, 5⟩ ⟨.Right 0, .Forward 1⟩ ⟨0, 0, 1⟩
        ⟨1, 2, 3⟩ ⟨0, 0, 0⟩
      = move_player_body ⟨8, 1, 1000, 10000, 5⟩ ⟨.Right 0, .Forward 1⟩ ⟨0, 0, 1⟩
        ⟨9, 9, 9⟩ ⟨0, 0, 0⟩
    ∧ move_player_body ⟨8, 1, 1000, 10000, 5⟩ ⟨.Right 0, .Forward 1⟩ ⟨0, 0, 1⟩
        ⟨0, 0, 0⟩ ⟨6, 0, 0⟩ = some ⟨0, 0, 0⟩ :=
  ⟨(move_player_body_replaces ⟨8, 1, 1000, 10000, 5⟩ ⟨.Right 0, .Forward 1⟩ ⟨0, 0, 1⟩
        ⟨0, 0, 0⟩).1 (by norm_num [Vec3.magnitudeSq]) ⟨1, 2, 3⟩ ⟨9, 9, 9⟩,
   (move_player_body_replaces ⟨8, 1, 1000, 10000, 5⟩ ⟨.Right 0, .Forward 1⟩ ⟨0, 0, 1⟩
        ⟨6, 0, 0⟩).2 (by norm_num [Vec3.horizontalSq])⟩

/-- C3, counterexample to the claim as stated: with mouse events of delta-x
5 and then -10 (no gamepad input), the sum of deltas is S = -5, so the claim
predicts lateral `Left |S| = Left 5`; the code resolves each nonzero delta by
overwriting, so the last nonzero delta wins and the result is `Left 10`. -/
theorem first_person_lookaround_sum_counterexample :
    (([⟨5, 0⟩, ⟨-10, 0⟩] : List MouseMotionEvent).map MouseMotionEvent.dx).sum = -5
    ∧ first_person_lookaround [⟨5, 0⟩, ⟨-10, 0⟩] [] [⟨.Right 0, .Up 0⟩]
        = some ⟨.Left 10, .Up 0⟩
    ∧ some (⟨.Left 10, .Up 0⟩ : Lookaround ℚ)
        ≠ some (⟨.Left |(-5 : ℚ)|, .Up 0⟩ : Lookaround ℚ) := by
  refine ⟨by norm_num, ?_, ?_⟩
  · rw [first_person_lookaround_resolved]
    norm_num [lastNonzero, resolveOr, resolveRightLeftLook, resolveDownUpMouse]
  · norm_num [Lookaround.mk.injEq, LookaroundDirection.Left.injEq]

/-- C3 (amended): for every tick with exactly one Subject and no nonzero
gamepad right-stick input, each axis of the LookIntent produced by
`first_person_lookaround` is determined by the LAST mouse-motion event whose
delta on that axis is nonzero (a zero delta leaves the accumulator alone,
so deltas are not summed): lateral is `Right d` for the winning `d > 0`,
`Left |d|` for `d < 0`, and the neutral `Right 0` when no event has a
nonzero delta-x; vertical is `Down d` for the winning `d > 0`, `Up |d|` for
`d < 0`, and the neutral `Up 0` when no event has a nonzero delta-y.  For a
tick with at most one nonzero event this agrees with the sum rule. -/
theorem mouse_look_last_nonzero (events : List MouseMotionEvent)
    (pads : List GamepadState) (lk : Lookaround ℚ)
    (hx : ∀ p ∈ pads, p.rightStickX.getD 0 = 0)
    (hy : ∀ p ∈ pads, p.rightStickY.getD 0 = 0) :
    first_person_lookaround events pads [lk]
      = some ⟨resolveOr (.Right 0) resolveRightLeftLook
                (lastNonzero (events.map MouseMotionEvent.dx)),
              resolveOr (.Up 0) resolveDownUpMouse
                (lastNonzero (events.map MouseMotionEvent.dy))⟩ := by
  have hX : lastNonzero (pads.map fun p => p.rightStickX.getD 0) = none := by
    refine lastNonzero_eq_none _ ?_
    intro dd hdd
    rcases List.mem_map.mp hdd with ⟨p, hp, rfl⟩
    exact hx p hp
  have hY : lastNonzero (pads.map fun p => p.rightStickY.getD 0) = none := by
    refine lastNonzero_eq_none _ ?_
    intro dd hdd
    rcases List.mem_map.mp hdd with ⟨p, hp, rfl⟩
    exact hy p hp
  rw [first_person_lookaround_resolved, hX, hY]
  rfl

/-- Witness for C3's amended theorem: a single event with delta (3, -2) and
no gamepads yields `Right 3` laterally and `Up 2` vertically. -/
theorem mouse_look_last_nonzero_witness :
    first_person_lookaround [⟨3, -2⟩] [] [⟨.Right 0, .Up 0⟩]
      = some ⟨.Right 3, .Up 2⟩ := by
  have h := mouse_look_last_nonzero [⟨3, -2⟩] [] ⟨.Right 0, .Up 0⟩ (by simp) (by simp)
  rw [h]
  norm_num [lastNonzero, resolveOr, resolveRightLeftLook, resolveDownUpMouse]

/-- C6: whenever some connected gamepad reports a nonzero stick value on an
axis, the sampled intent on that axis is the gamepad-derived value of the
last nonzero reading in iteration order — `Right d`/`Forward d` for positive
`d`, `Left |d|`/`Back |d|` for negative `d` on the left stick, and for the
right stick `Right d`/`Left |d|` laterally and `Up d`/`Down |d|` vertically
(positive maps to `Up`, the opposite vertical sign from the mouse
convention) — for EVERY keyboard state and every list of mouse events, i.e.
discarding the keyboard/mouse resolution for that axis. -/
theorem gamepad_overrides (kb : Keyboard) (pads : List GamepadState)
    (events : List MouseMotionEvent) (m : Movement) (lk : Lookaround ℚ) (d : ℚ) :
    (lastNonzero (pads.map fun p => p.leftStickX.getD 0) = some d →
      (first_person_movement kb pads [m]).map Movement.left_right
        = some (if d > 0 then .Right d else .Left |d|))
    ∧ (lastNonzero (pads.map fun p => p.leftStickY.getD 0) = some d →
      (first_person_movement kb pads [m]).map Movement.forward_back
        = some (if d > 0 then .Forward d else .Back |d|))
    ∧ (lastNonzero (pads.map fun p => p.rightStickX.getD 0) = some d →
      (first_person_lookaround events pads [lk]).map Lookaround.left_right
        = some (if d > 0 then .Right d else .Left |d|))
    ∧ (lastNonzero (pads.map fun p => p.rightStickY.getD 0) = some d →
      (first_person_lookaround events pads [lk]).map Lookaround.up_down
        = some (if d > 0 then .Up d else .Down |d|)) := by
  refine ⟨?_, ?_, ?_, ?_⟩ <;> intro h <;>
    simp [first_person_movement_resolved, first_person_lookaround_resolved, h, resolveOr,
      resolveRightLeftMove, resolveForwardBack, resolveRightLeftLook, resolveUpDownPad]

/-- Witness for C6: one pad reporting 2 on all four axes overrides a
keyboard with every movement key held and a nonzero mouse event. -/
theorem gamepad_overrides_witness :
    lastNonzero (([⟨some 2, some 2, some 2, some 2, false⟩] : List GamepadState).map
        fun p => p.leftStickX.getD 0) = some 2
    ∧ (first_person_movement ⟨true, true, true, true, true, true, true, true⟩
        [⟨some 2, some 2, some 2, some 2, false⟩] [⟨.Right 0, .Forward 0⟩]).map
          Movement.left_right
        = some (if (2 : ℚ) > 0 then .Right 2 else .Left |(2 : ℚ)|)
    ∧ (first_person_movement ⟨true, true, true, true, true, true, true, true⟩
        [⟨some 2, some 2, some 2, some 2, false⟩] [⟨.Right 0, .Forward 0⟩]).map
          Movement.forward_back
        = some (if (2 : ℚ) > 0 then .Forward 2 else .Back |(2 : ℚ)|)
    ∧ (first_person_lookaround [⟨1, 1⟩]
        [⟨some 2, some 2, some 2, some 2, false⟩] [⟨.Right 0, .Up 0⟩]).map
          Lookaround.left_right
        = some (if (2 : ℚ) > 0 then .Right 2 else .Left |(2 : ℚ)|)
    ∧ (first_person_lookaround [⟨1, 1⟩]
        [⟨some 2, some 2, some 2, some 2, false⟩] [⟨.Right 0, .Up 0⟩]).map
          Lookaround.up_down
        = some (if (2 : ℚ) > 0 then .Up 2 else .Down |(2 : ℚ)|) := by
  have hlast : lastNonzero (([⟨some 2, some 2, some 2, some 2, false⟩] :
      List GamepadState).map fun p => p.leftStickX.getD 0) = some 2 := by
    norm_num [lastNonzero]
  have hlast2 : lastNonzero (([⟨some 2, some 2, some 2, some 2, false⟩] :
      List GamepadState).map fun p => p.leftStickY.getD 0) = some 2 := by
    norm_num [lastNonzero]
  have hlast3 : lastNonzero (([⟨some 2, some 2, some 2, some 2, false⟩] :
      List GamepadState).map fun p => p.rightStickX.getD 0) = some 2 := by
    norm_num [lastNonzero]
  have hlast4 : lastNonzero (([⟨some 2, some 2, some 2, some 2, false⟩] :
      List GamepadState).map fun p => p.rightStickY.getD 0) = some 2 := by
    norm_num [lastNonzero]
  exact ⟨hlast,
    (gamepad_overrides ⟨true, true, true, true, true, true, true, true⟩
      [⟨some 2, some 2, some 2, some 2, false⟩] [⟨1, 1⟩] ⟨.Right 0, .Forward 0⟩
      ⟨.Right 0, .Up 0⟩ 2).1 hlast,
    (gamepad_overrides ⟨true, true, true, true, true, true, true, true⟩
      [⟨some 2, some 2, some 2, some 2, false⟩] [⟨1, 1⟩] ⟨.Right 0, .Forward 0⟩
      ⟨.Right 0, .Up 0⟩ 2).2.1 hlast2,
    (gamepad_overrides ⟨true, true, true, true, true, true, true, true⟩
      [⟨some 2, some 2, some 2, some 2, false⟩] [⟨1, 1⟩] ⟨.Right 0, .Forward 0⟩
      ⟨.Right 0, .Up 0⟩ 2).2.2.1 hlast3,
    (gamepad_overrides ⟨true, true, true, true, true, true, true, true⟩
      [⟨some 2, some 2, some 2, some 2, false⟩] [⟨1, 1⟩] ⟨.Right 0, .Forward 0⟩
      ⟨.Right 0, .Up 0⟩ 2).2.2.2 hlast4⟩

/-- C7: the sampling systems abort (model: return `none`, for the
`get_single_mut` panic) exactly when the number of Subjects differs from
one; with exactly one Subject they complete, and the intent they store does
not depend on the prior value of the Subject's component (both fields are
overwritten). -/
theorem sampler_singleton_contract (kb : Keyboard) (pads : List GamepadState)
    (events : List MouseMotionEvent) (ms : List Movement) (ls : List (Lookaround ℚ)) :
    (first_person_movement kb pads ms = none ↔ ms.length ≠ 1)
    ∧ (first_person_lookaround events pads ls = none ↔ ls.length ≠ 1)
    ∧ (∀ m m' : Movement,
        first_person_movement kb pads [m] = first_person_movement kb pads [m'])
    ∧ (∀ l l' : Lookaround ℚ,
        first_person_lookaround events pads [l] = first_person_lookaround events pads [l']) := by
  refine ⟨?_, ?_, fun m m' => rfl, fun l l' => rfl⟩
  · match ms with
    | [] => simp [first_person_movement]
    | [m] => simp [first_person_movement]
    | m :: m' :: t => simp [first_person_movement]
  · match ls with
    | [] => simp [first_person_lookaround]
    | [l] => simp [first_person_lookaround]
    | l :: l' :: t => simp [first_person_lookaround]

/-- Witness for C7: zero Subjects abort, one Subject completes. -/
theorem sampler_singleton_contract_witness :
    first_person_movement ⟨false, false, false, false, false, false, false, false⟩ [] [] = none
    ∧ first_person_movement ⟨false, false, false, false, false, false, false, false⟩ []
        [⟨.Right 0, .Forward 0⟩] ≠ none
    ∧ first_person_lookaround [] [] ([] : List (Lookaround ℚ)) = none := by
  refine ⟨?_, ?_, ?_⟩
  · exact (sampler_singleton_contract ⟨false, false, false, false, false, false, false, false⟩
      [] [] [] []).1.mpr (by decide)
  · intro hn
    exact absurd ((sampler_singleton_contract
      ⟨false, false, false, false, false, false, false, false⟩
      [] [] [⟨.Right 0, .Forward 0⟩] []).1.mp hn) (by decide)
  · exact (sampler_singleton_contract ⟨false, false, false, false, false, false, false, false⟩
      [] [] [] []).2.1.mpr (by decide)

/-- C9: with both keys of an opposing pair held and no nonzero gamepad
left-stick input, `first_person_movement` resolves by the fixed check order
(later check wins), never to neutral: A/Left together with D/Right yields
`Right 1`, and S/Down together with W/Up yields `Forward 1`. -/
theorem keyboard_tiebreak (kb : Keyboard) (pads : List GamepadState) (m : Movement)
    (hX : ∀ p ∈ pads, p.leftStickX.getD 0 = 0)
    (hY : ∀ p ∈ pads, p.leftStickY.getD 0 = 0) :
    ((kb.a || kb.leftArrow) = true → (kb.d || kb.rightArrow) = true →
      (first_person_movement kb pads [m]).map Movement.left_right = some (.Right 1))
    ∧ ((kb.s || kb.downArrow) = true → (kb.w || kb.upArrow) = true →
      (first_person_movement kb pads [m]).map Movement.forward_back = some (.Forward 1)) := by
  have hXn : lastNonzero (pads.map fun p => p.leftStickX.getD 0) = none := by
    refine lastNonzero_eq_none _ ?_
    intro dd hdd
    rcases List.mem_map.mp hdd with ⟨p, hp, rfl⟩
    exact hX p hp
  have hYn : lastNonzero (pads.map fun p => p.leftStickY.getD 0) = none := by
    refine lastNonzero_eq_none _ ?_
    intro dd hdd
    rcases List.mem_map.mp hdd with ⟨p, hp, rfl⟩
    exact hY p hp
  constructor
  · intro _ h2
    simp [first_person_movement_resolved, hXn, resolveOr, keyboardLeftRight, h2]
  · intro _ h2
    simp [first_person_movement_resolved, hYn, resolveOr, keyboardForwardBack, h2]

/-- Witness for C9: all eight movement keys held, no gamepads. -/
theorem keyboard_tiebreak_witness :
    (first_person_movement ⟨true, true, true, true, true, true, true, true⟩ []
      [⟨.Right 0, .Forward 0⟩]).map Movement.left_right = some (.Right 1)
    ∧ (first_person_movement ⟨true, true, true, true, true, true, true, true⟩ []
      [⟨.Right 0, .Forward 0⟩]).map Movement.forward_back = some (.Forward 1) :=
  ⟨(keyboard_tiebreak ⟨true, true, true, true, true, true, true, true⟩ []
      ⟨.Right 0, .Forward 0⟩ (by simp) (by simp)).1 rfl rfl,
   (keyboard_tiebreak ⟨true, true, true, true, true, true, true, true⟩ []
      ⟨.Right 0, .Forward 0⟩ (by simp) (by simp)).2 rfl rfl⟩

/-- C4: when the ground probe ray (downward from `capsuleHeight/2 + 0.01`
below the Subject, max distance 0.02) misses, `jump_player_body` never
touches the force; when it hits and the jump key or any connected pad's
South button was just pressed this tick, exactly `jump_force` is added to
the vertical component, additively on top of the force already in the
accumulator and leaving the horizontal components unchanged; when it hits
but no jump input was just pressed this tick (in particular while an input
is merely held across ticks, since `just_pressed` is edge-triggered), the
force is unchanged. -/
theorem jump_player_body_spec (cfg : PlayerConfig) (castRayHit : Vec3 → Vec3 → ℚ → Bool)
    (pos f : Vec3) (space : Bool) (pads : List GamepadState) :
    (castRayHit (jumpRayOrigin cfg pos) ⟨0, -1, 0⟩ (2 / 100) = false →
      jump_player_body cfg castRayHit pos f space pads = f)
    ∧ (castRayHit (jumpRayOrigin cfg pos) ⟨0, -1, 0⟩ (2 / 100) = true →
        (space || pads.any fun p => p.southJustPressed) = true →
        jump_player_body cfg castRayHit pos f space pads = f.add ⟨0, cfg.jump_force, 0⟩
          ∧ f.add ⟨0, cfg.jump_force, 0⟩ = ⟨f.x, f.y + cfg.jump_force, f.z⟩)
    ∧ (castRayHit (jumpRayOrigin cfg pos) ⟨0, -1, 0⟩ (2 / 100) = true →
        space = false → (∀ p ∈ pads, p.southJustPressed = false) →
        jump_player_body cfg castRayHit pos f space pads = f) := by
  refine ⟨?_, ?_, ?_⟩
  · intro h
    rw [jump_player_body_eq, h]
    simp
  · intro h hj
    rw [jump_player_body_eq, h]
    simp [hj, Vec3.add]
  · intro h hs hp
    have hany : (pads.any fun p => p.southJustPressed) = false := by
      simp only [List.any_eq_false]
      intro p hmem
      simp [hp p hmem]
    rw [jump_player_body_eq, h]
    cases f
    simp [hs, hany, Vec3.add]

/-- Witness for C4: with an always-hit probe a just-pressed jump key adds
(0, jump_force, 0); with an always-miss probe the force is untouched. -/
theorem jump_player_body_spec_witness :
    (true || ([] : List GamepadState).any fun p => p.southJustPressed) = true
    ∧ jump_player_body ⟨8, 1, 1000, 10000, 5⟩ (fun _ _ _ => true) ⟨0, 7, 7⟩
        ⟨1, 2, 3⟩ true [] = Vec3.add ⟨1, 2, 3⟩ ⟨0, 10000, 0⟩
    ∧ jump_player_body ⟨8, 1, 1000, 10000, 5⟩ (fun _ _ _ => false) ⟨0, 7, 7⟩
        ⟨1, 2, 3⟩ true [] = ⟨1, 2, 3⟩ := by
  refine ⟨rfl, ?_, ?_⟩
  · exact ((jump_player_body_spec ⟨8, 1, 1000, 10000, 5⟩ (fun _ _ _ => true) ⟨0, 7, 7⟩
      ⟨1, 2, 3⟩ true []).2.1 rfl rfl).1
  · exact (jump_player_body_spec ⟨8, 1, 1000, 10000, 5⟩ (fun _ _ _ => false) ⟨0, 7, 7⟩
      ⟨1, 2, 3⟩ true []).1 rfl

/-- C10: on a grounded tick where the keyboard jump key and every connected
pad's jump button are all just-pressed, the force still gains exactly
`jump_force` on the vertical axis (contributions are not accumulated per
device); on a grounded tick with no just-pressed jump input the force gains
the zero vector, i.e. is left exactly unchanged. -/
theorem jump_single_impulse (cfg : PlayerConfig) (castRayHit : Vec3 → Vec3 → ℚ → Bool)
    (pos f : Vec3) (pads : List GamepadState) :
    (castRayHit (jumpRayOrigin cfg pos) ⟨0, -1, 0⟩ (2 / 100) = true →
      (∀ p ∈ pads, p.southJustPressed = true) →
      jump_player_body cfg castRayHit pos f true pads = f.add ⟨0, cfg.jump_force, 0⟩)
    ∧ (castRayHit (jumpRayOrigin cfg pos) ⟨0, -1, 0⟩ (2 / 100) = true →
      (∀ p ∈ pads, p.southJustPressed = false) →
      jump_player_body cfg castRayHit pos f false pads = f.add ⟨0, 0, 0⟩
        ∧ f.add ⟨0, 0, 0⟩ = f) := by
  constructor
  · intro h _
    rw [jump_player_body_eq, h]
    simp
  · intro h hp
    have hany : (pads.any fun p => p.southJustPressed) = false := by
      simp only [List.any_eq_false]
      intro p hmem
      simp [hp p hmem]
    rw [jump_player_body_eq, h]
    cases f
    simp [hany, Vec3.add]

/-- Witness for C10: two pads with South just-pressed plus the keyboard jump
key still add exactly one `jump_force`; no inputs leave the force alone. -/
theorem jump_single_impulse_witness :
    jump_player_body ⟨8, 1, 1000, 10000, 5⟩ (fun _ _ _ => true) ⟨0, 7, 7⟩ ⟨1, 2, 3⟩ true
        [⟨none, none, none, none, true⟩, ⟨none, none, none, none, true⟩]
      = Vec3.add ⟨1, 2, 3⟩ ⟨0, 10000, 0⟩
    ∧ jump_player_body ⟨8, 1, 1000, 10000, 5⟩ (fun _ _ _ => true) ⟨0, 7, 7⟩ ⟨1, 2, 3⟩ false
        [⟨none, none, none, none, false⟩] = Vec3.add ⟨1, 2, 3⟩ ⟨0, 0, 0⟩ :=
  ⟨(jump_single_impulse ⟨8, 1, 1000, 10000, 5⟩ (fun _ _ _ => true) ⟨0, 7, 7⟩ ⟨1, 2, 3⟩
      [⟨none, none, none, none, true⟩, ⟨none, none, none, none, true⟩]).1 rfl (by simp),
   ((jump_single_impulse ⟨8, 1, 1000, 10000, 5⟩ (fun _ _ _ => true) ⟨0, 7, 7⟩ ⟨1, 2, 3⟩
      [⟨none, none, none, none, false⟩]).2 rfl (by simp)).1⟩

/-- C5: with exactly one Subject and one head, `rotate_player_head` sets
`new_pitch = clamp(old_pitch + m * 0.005 * (verticalSensitivity / 5), -π/2, π/2)`
for a vertical intent `Up m` and
`new_pitch = clamp(old_pitch - m * 0.005 * (verticalSensitivity / 5), -π/2, π/2)`
for `Down m`; consequently any produced pitch — in particular one starting
within `[-π/2, π/2]` — remains within `[-π/2, π/2]`. -/
theorem rotate_player_head_pitch (vs : ℕ) (angle m : ℝ)
    (_hlo : -(Real.pi / 2) ≤ angle) (_hhi : angle ≤ Real.pi / 2) :
    rotate_player_head (Real.pi / 2) vs angle (.Up m)
        = some (rustClamp (angle + m * (5 / 1000) * ((vs : ℝ) / 5))
            (-(Real.pi / 2)) (Real.pi / 2))
    ∧ rotate_player_head (Real.pi / 2) vs angle (.Down m)
        = some (rustClamp (angle - m * (5 / 1000) * ((vs : ℝ) / 5))
            (-(Real.pi / 2)) (Real.pi / 2))
    ∧ (∀ r : ℝ,
        rotate_player_head (Real.pi / 2) vs angle (.Up m) = some r
          ∨ rotate_player_head (Real.pi / 2) vs angle (.Down m) = some r →
        -(Real.pi / 2) ≤ r ∧ r ≤ Real.pi / 2) := by
  have hpi : (0 : ℝ) < Real.pi := Real.pi_pos
  have hle : -(Real.pi / 2) ≤ Real.pi / 2 := by linarith
  have hclamp : ∀ x : ℝ, -(Real.pi / 2) ≤ rustClamp x (-(Real.pi / 2)) (Real.pi / 2)
      ∧ rustClamp x (-(Real.pi / 2)) (Real.pi / 2) ≤ Real.pi / 2 := by
    intro x
    exact ⟨le_min (le_max_right x _) hle, min_le_right _ _⟩
  refine ⟨rfl, rfl, ?_⟩
  intro r hr
  rcases hr with h | h
  · simp only [rotate_player_head, Option.some.injEq] at h
    exact h ▸ hclamp _
  · simp only [rotate_player_head, Option.some.injEq] at h
    exact h ▸ hclamp _

/-- Witness for C5 at pitch 0, sensitivity 5, intent `Up 1`: the new pitch
is 0.005, inside the clamp range. -/
theorem rotate_player_head_pitch_witness :
    (-(Real.pi / 2) ≤ (0 : ℝ)) ∧ ((0 : ℝ) ≤ Real.pi / 2)
    ∧ rotate_player_head (Real.pi / 2) 5 (0 : ℝ) (.Up 1) = some ((5 : ℝ) / 1000) := by
  have hpi : (3 : ℝ) < Real.pi := Real.pi_gt_three
  have h1 : -(Real.pi / 2) ≤ (0 : ℝ) := by linarith
  have h2 : (0 : ℝ) ≤ Real.pi / 2 := by linarith
  refine ⟨h1, h2, ?_⟩
  have h := (rotate_player_head_pitch 5 0 1 h1 h2).1
  have e1 : (0 : ℝ) + 1 * (5 / 1000) * (((5 : ℕ) : ℝ) / 5) = 5 / 1000 := by norm_num
  have hmax : -(Real.pi / 2) ≤ (5 : ℝ) / 1000 := by linarith
  have hmin : (5 : ℝ) / 1000 ≤ Real.pi / 2 := by linarith
  rw [h, e1, rustClamp, max_eq_left hmax, min_eq_left hmin]

/-- C8: direction equality is tag-exact and magnitude-approximate with a
strict margin of 0.01: same-tag values are equal exactly when the magnitudes
differ by strictly less than 0.01 (so equality fails exactly at the 0.01
boundary), and values with different tags are never equal — in particular
`Left m` is never equal to `Right m`, including at `m = 0`. -/
theorem direction_eq_spec (m1 m2 : ℚ) :
    (MovementDirection.eq (.Left m1) (.Left m2) = true ↔ |m1 - m2| < 1 / 100)
    ∧ (MovementDirection.eq (.Right m1) (.Right m2) = true ↔ |m1 - m2| < 1 / 100)
    ∧ (MovementDirection.eq (.Forward m1) (.Forward m2) = true ↔ |m1 - m2| < 1 / 100)
    ∧ (MovementDirection.eq (.Back m1) (.Back m2) = true ↔ |m1 - m2| < 1 / 100)
    ∧ (LookaroundDirection.eq (.Left m1) (.Left m2) = true ↔ |m1 - m2| < 1 / 100)
    ∧ (LookaroundDirection.eq (.Right m1) (.Right m2) = true ↔ |m1 - m2| < 1 / 100)
    ∧ (LookaroundDirection.eq (.Up m1) (.Up m2) = true ↔ |m1 - m2| < 1 / 100)
    ∧ (LookaroundDirection.eq (.Down m1) (.Down m2) = true ↔ |m1 - m2| < 1 / 100)
    ∧ (∀ x y : MovementDirection, x.ctorIdx ≠ y.ctorIdx → MovementDirection.eq x y = false)
    ∧ (∀ x y : LookaroundDirection ℚ, x.ctorIdx ≠ y.ctorIdx → LookaroundDirection.eq x y = false)
    ∧ (∀ mq : ℚ, MovementDirection.eq (.Left mq) (.Right mq) = false
        ∧ LookaroundDirection.eq (.Left mq) (.Right mq) = false) := by
  refine ⟨?_, ?_, ?_, ?_, ?_, ?_, ?_, ?_, ?_, ?_, ?_⟩
  · simp [MovementDirection.eq, MOVEMENT_DIRECTION_MARGIN]
  · simp [MovementDirection.eq, MOVEMENT_DIRECTION_MARGIN]
  · simp [MovementDirection.eq, MOVEMENT_DIRECTION_MARGIN]
  · simp [MovementDirection.eq, MOVEMENT_DIRECTION_MARGIN]
  · simp [LookaroundDirection.eq, LOOKAROUND_DIRECTION_MARGIN]
  · simp [LookaroundDirection.eq, LOOKAROUND_DIRECTION_MARGIN]
  · simp [LookaroundDirection.eq, LOOKAROUND_DIRECTION_MARGIN]
  · simp [LookaroundDirection.eq, LOOKAROUND_DIRECTION_MARGIN]
  · intro x y hxy
    cases x <;> cases y <;>
      simp_all [MovementDirection.ctorIdx, MovementDirection.eq]
  · intro x y hxy
    cases x <;> cases y <;>
      simp_all [LookaroundDirection.ctorIdx, LookaroundDirection.eq]
  · intro mq
    exact ⟨rfl, rfl⟩

/-- Witness for C8: magnitudes 0 and 1/200 are equal under the margin, and
`Left 0` differs from `Right 0` despite equal magnitudes. -/
theorem direction_eq_spec_witness :
    |(0 : ℚ) - 1 / 200| < 1 / 100
    ∧ MovementDirection.eq (.Left 0) (.Left (1 / 200)) = true
    ∧ MovementDirection.ctorIdx (.Left 0) ≠ MovementDirection.ctorIdx (.Right 0)
    ∧ MovementDirection.eq (.Left 0) (.Right 0) = false := by
  have hm : |(0 : ℚ) - 1 / 200| < 1 / 100 :=
    abs_sub_lt_iff.mpr ⟨by norm_num, by norm_num⟩
  exact ⟨hm, (direction_eq_spec 0 (1 / 200)).1.mpr hm, by decide,
    ((direction_eq_spec 0 0).2.2.2.2.2.2.2.2.2.2 0).1⟩

end BevyFP
